import Mathlib

/-!
Shallow embedding of the db_logger crate (src/logger.rs and src/sqlite.rs)
together with theorems checking the natural-language specification against it.

Strings are modelled as lists of characters; machine integers as Nat / Int
with explicit bounds where the code checks them.  The batching actor
(the async function recorder in src/logger.rs) is modelled as a step
function on its local state (buffer of pending entries, list of in-flight
write batches); the effects of one loop iteration (writes started, writers
awaited, acknowledgments sent, stderr lines emitted, termination) are
returned alongside the new state.
-/

namespace DbLoggerModel

/-! ## Severity levels (the log crate's Level enum) -/

/-- Severity level, mirroring the log crate's Level enum:
Error = 1, Warn = 2, Info = 3, Debug = 4, Trace = 5, and
Error < Warn < Info < Debug < Trace in its derived order. -/
inductive Level where
  | error
  | warn
  | info
  | debug
  | trace
deriving DecidableEq, Repr

/-- Numeric value of a level, as in the Rust enum representation
(Level::Error as usize == 1, ..., Level::Trace as usize == 5).
The derived Rust Ord on Level coincides with the order of these values. -/
def Level.toUsize : Level → Nat
  | .error => 1
  | .warn => 2
  | .info => 3
  | .debug => 4
  | .trace => 5

/-! ## Data model of src/logger.rs -/

/-- Maximum number of log entries to batch in each database write
(MAX_BATCH_SIZE in src/logger.rs). -/
def MAX_BATCH_SIZE : Nat := 128

/-- Maximum delay between log flushes, in seconds
(MAX_FLUSH_DELAY_SECS in src/logger.rs). -/
def MAX_FLUSH_DELAY_SECS : Nat := 5

/-- Default log level when RUST_LOG is not set (DEFAULT_LOG_LEVEL). -/
def DEFAULT_LOG_LEVEL : Level := Level.warn

/-- LOG_ENTRY_MAX_HOSTNAME_LENGTH in src/logger.rs. -/
def LOG_ENTRY_MAX_HOSTNAME_LENGTH : Nat := 64

/-- LOG_ENTRY_MAX_MODULE_LENGTH in src/logger.rs. -/
def LOG_ENTRY_MAX_MODULE_LENGTH : Nat := 64

/-- LOG_ENTRY_MAX_FILENAME_LENGTH in src/logger.rs. -/
def LOG_ENTRY_MAX_FILENAME_LENGTH : Nat := 256

/-- LOG_ENTRY_MAX_MESSAGE_LENGTH in src/logger.rs. -/
def LOG_ENTRY_MAX_MESSAGE_LENGTH : Nat := 4096

/-- Contents of a log entry (struct LogEntry in src/logger.rs).  The
timestamp is modelled by its Unix-epoch nanosecond value, which is the
only projection of the OffsetDateTime that src/sqlite.rs consumes. -/
structure LogEntry where
  timestamp : Int
  hostname : List Char
  level : Level
  module : Option (List Char)
  filename : Option (List Char)
  line : Option Nat
  message : List Char
deriving DecidableEq, Repr

/-- Types of requests that can be sent to the recorder background task
(enum Action in src/logger.rs). -/
inductive Action where
  | stop
  | flush
  | record (entry : LogEntry)
deriving DecidableEq, Repr

/-- Outcome of action_rx.recv_timeout(timeout) at the top of the recorder
loop: an action was received, the 5-second timeout elapsed, or the channel
is disconnected. -/
inductive RecvResult where
  | ok (action : Action)
  | timeout
  | disconnected
deriving DecidableEq, Repr

/-- Local state of the recorder loop: the buffer of pending entries and
the list of in-flight write batches (each in-flight tokio task is
identified by the batch of entries it owns). -/
structure RecorderState where
  buffer : List LogEntry
  writers : List (List LogEntry)
deriving DecidableEq, Repr

/-- Observable effects of one iteration of the recorder loop. -/
structure StepEffects where
  /-- Batches handed to tokio::spawn(write_all ...) during this step,
  in dispatch order. -/
  started : List (List LogEntry)
  /-- In-flight writers awaited to completion during this step, in the
  order they are awaited. -/
  awaited : List (List LogEntry)
  /-- Number of unit acknowledgments sent on done_tx during this step. -/
  acks : Nat
  /-- Number of diagnostic lines printed to stderr by the loop itself. -/
  errLines : Nat
  /-- Whether the loop breaks (the actor terminates) after this step. -/
  terminated : Bool
deriving DecidableEq, Repr

/-- The Action::Flush arm of the recorder loop: if the buffer is
non-empty, detach it (buffer.split_off(0)) as one batch and spawn a write
for it; then await every writer in writers.split_off(0); finally send one
acknowledgment when the flush was not an auto-flush. -/
def flushStep (auto_flush : Bool) (s : RecorderState) : RecorderState × StepEffects :=
  let (buffer, writers, started) :=
    if s.buffer.isEmpty then
      (s.buffer, s.writers, ([] : List (List LogEntry)))
    else
      (([] : List LogEntry), s.writers ++ [s.buffer], [s.buffer])
  let awaited := writers
  (⟨buffer, []⟩,
   ⟨started, awaited, if auto_flush then 0 else 1, 0, false⟩)

/-- The Action::Record arm of the recorder loop: push the entry onto the
buffer; if the buffer length reaches MAX_BATCH_SIZE, detach the whole
buffer as one batch and spawn a write for it. -/
def recordStep (entry : LogEntry) (s : RecorderState) : RecorderState × StepEffects :=
  let buffer := s.buffer ++ [entry]
  if buffer.length = MAX_BATCH_SIZE then
    (⟨[], s.writers ++ [buffer]⟩, ⟨[buffer], [], 0, 0, false⟩)
  else
    (⟨buffer, s.writers⟩, ⟨[], [], 0, 0, false⟩)

/-- One iteration of the recorder loop in src/logger.rs, from the
recv_timeout at the top.  A timeout is turned into an auto Flush; a
disconnected channel prints a diagnostic and breaks; Action::Stop breaks.
Both breaks fall through to the final done_tx.send(()) (terminal
acknowledgment), with no flush of the buffer and no await of the
in-flight writers on that path. -/
def recorderStep (r : RecvResult) (s : RecorderState) : RecorderState × StepEffects :=
  match r with
  | .ok .stop => (s, ⟨[], [], 1, 0, true⟩)
  | .ok .flush => flushStep false s
  | .ok (.record entry) => recordStep entry s
  | .timeout => flushStep true s
  | .disconnected => (s, ⟨[], [], 1, 1, true⟩)

/-- The shutdown sequence run by Handle::drop in src/logger.rs: the actor
processes a caller-initiated Flush (acknowledged), then a Stop
(terminal acknowledgment).  Returns the final state and the effects of
the two iterations. -/
def handle_drop (s : RecorderState) : RecorderState × StepEffects × StepEffects :=
  let p1 := recorderStep (.ok .flush) s
  let p2 := recorderStep (.ok .stop) p1.1
  (p2.1, p1.2, p2.2)

/-! ## Log intercept adapter (is_recorder_log, DbLogger::log) -/

/-- A log facade record as seen by DbLogger::log: severity, optional
module path, optional file, optional line, and the formatted message. -/
structure LogRecord where
  level : Level
  module : Option (List Char)
  file : Option (List Char)
  line : Option Nat
  message : List Char
deriving DecidableEq, Repr

/-- is_recorder_log in src/logger.rs: true when the record was
potentially emitted by the persistence code itself.  A record with no
module path is filtered; so is one whose module starts with rustls:: or
sqlx::; and, because Trace is the greatest level in the log crate's
order, the async_io:: / async_std:: / polling prefixes are filtered
exactly when the record's level is Trace. -/
def is_recorder_log (r : LogRecord) : Bool :=
  match r.module with
  | none => true
  | some m =>
    (("rustls::".toList.isPrefixOf m || "sqlx::".toList.isPrefixOf m))
    || (decide (Level.trace.toUsize ≤ r.level.toUsize)
        && ("async_io::".toList.isPrefixOf m
            || "async_std::".toList.isPrefixOf m
            || "polling".toList.isPrefixOf m))

/-- Modelled from the spec for refinement comparison with
is_recorder_log: the spec's "set of modules known to be exercised by the
Storage Port's own machinery (its SQL client, its TLS/network layers)",
read as the SQL client sqlx and the TLS layer rustls, with membership
independent of the record's severity. -/
def spec_storage_layer_module (m : List Char) : Bool :=
  "rustls::".toList.isPrefixOf m || "sqlx::".toList.isPrefixOf m

/-- What DbLogger::log does with one record: either it forwards a
Record action on the channel, or it drops the record, possibly emitting
one fallback line on stderr.  The pair is (action sent, stderr lines). -/
def DbLogger.log (hostname : List Char) (now : Int) (r : LogRecord) :
    Option Action × Nat :=
  if is_recorder_log r then
    (none, if decide (r.level.toUsize ≤ Level.warn.toUsize) then 1 else 0)
  else
    (some (.record
      { timestamp := now
        hostname := hostname
        level := r.level
        module := some (r.module.getD [])
        filename := some (r.file.getD [])
        line := r.line
        message := r.message }), 0)

/-! ## Configuration (env_rust_log, hostname discovery) -/

/-- Result of env::var("RUST_LOG"): the value, the variable being unset
(VarError::NotPresent), or a non-Unicode value (VarError::NotUnicode). -/
inductive EnvValue where
  | val (s : List Char)
  | missing
  | notUnicode
deriving DecidableEq, Repr

/-- ASCII lowercase folding of a character, as in Rust's
eq_ignore_ascii_case. -/
def asciiLower (c : Char) : Char :=
  if 'A' ≤ c && c ≤ 'Z' then Char.ofNat (c.toNat + 32) else c

/-- Level::from_str of the log crate, called by env_rust_log: matches the
input case-insensitively (ASCII) against the five level names; anything
else (including OFF) is a parse error. -/
def level_from_str (s : List Char) : Option Level :=
  let l := s.map asciiLower
  if l = "error".toList then some .error
  else if l = "warn".toList then some .warn
  else if l = "info".toList then some .info
  else if l = "debug".toList then some .debug
  else if l = "trace".toList then some .trace
  else none

/-- env_rust_log in src/logger.rs.  Returns the chosen level together
with the number of diagnostic lines printed to stderr: an unset variable
falls back to the default silently, while an unparsable or non-Unicode
value falls back with one diagnostic. -/
def env_rust_log (v : EnvValue) : Level × Nat :=
  match v with
  | .val s =>
    match level_from_str s with
    | some level => (level, 0)
    | none => (DEFAULT_LOG_LEVEL, 1)
  | .missing => (DEFAULT_LOG_LEVEL, 0)
  | .notUnicode => (DEFAULT_LOG_LEVEL, 1)

/-- The hostname computation in init (src/logger.rs):
gethostname().into_string() is an Ok hostname or a conversion failure,
and a failure is replaced by the placeholder "invalid-hostname".  The
pair is (hostname used, stderr diagnostic lines); no diagnostic is
printed on either path. -/
def init_hostname (lookup : Option (List Char)) : List Char × Nat :=
  match lookup with
  | some h => (h, 0)
  | none => ("invalid-hostname".toList, 0)

/-! ## SQLite backend (src/sqlite.rs) -/

/-- Largest Unix-epoch nanosecond value representable by the time
crate's OffsetDateTime without the large-dates feature
(9999-12-31T23:59:59.999999999Z), bounding the input domain of
unpack_timestamp. -/
def OFFSET_DATE_TIME_MAX_UNIX_NANOS : Int := 253402300799999999999

/-- unpack_timestamp in src/sqlite.rs, on the Unix-epoch nanosecond
value of the timestamp (an i128 in the source; division and remainder
are Rust's truncating tdiv/tmod).  Nanoseconds are rounded to the next
microsecond; the seconds part must fit in an i64 or an error is
returned. -/
def unpack_timestamp (ts : Int) : Except (List Char) (Int × Int) :=
  let nanos := ts
  let nanos_only := Int.tmod nanos 1000
  let nanos := Int.tdiv nanos 1000 * 1000
  let nanos := if 0 < nanos_only then nanos + 1000 else nanos
  let sec := Int.tdiv nanos 1000000000
  if sec < -(2 ^ 63) || 2 ^ 63 - 1 < sec then
    .error ("timestamp too large".toList)
  else
    .ok (sec, Int.tmod nanos 1000000000)

/-- Modelled from the spec: truncate_option_str lives at the crate root
(src/lib.rs), which is not part of the sources here; the spec's §3
invariant says bounded optional fields are "truncated to fixed maximum
lengths", so an absent value stays absent and a present one keeps its
first n characters. -/
def truncate_option_str (o : Option (List Char)) (n : Nat) : Option (List Char) :=
  o.map (fun s => s.take n)

/-- One row of the logs table as bound by put_log_entries. -/
structure StoredEntry where
  timestamp_secs : Int
  timestamp_nsecs : Int
  sequence : Nat
  hostname : List Char
  level : Nat
  module : Option (List Char)
  filename : Option (List Char)
  line : Option Nat
  message : List Char
deriving DecidableEq, Repr

/-- The per-entry body of the bind loop in put_log_entries: truncate the
bounded fields (String::truncate keeps the first n characters), unpack
the timestamp, and check that the sequence number fits in an i64. -/
def encode_entry (e : LogEntry) (sequence : Nat) : Except (List Char) StoredEntry :=
  let module := truncate_option_str e.module LOG_ENTRY_MAX_MODULE_LENGTH
  let filename := truncate_option_str e.filename LOG_ENTRY_MAX_FILENAME_LENGTH
  let hostname := e.hostname.take LOG_ENTRY_MAX_HOSTNAME_LENGTH
  let message := e.message.take LOG_ENTRY_MAX_MESSAGE_LENGTH
  match unpack_timestamp e.timestamp with
  | .error err => .error err
  | .ok ts =>
    if 2 ^ 63 ≤ sequence then .error ("sequence out of range".toList)
    else
      .ok { timestamp_secs := ts.1
            timestamp_nsecs := ts.2
            sequence := sequence
            hostname := hostname
            level := e.level.toUsize
            module := module
            filename := filename
            line := e.line
            message := message }

/-- The bind loop of put_log_entries: rows are built left to right, the
sequence number incrementing by one per entry; the first per-entry error
aborts the whole call. -/
def build_rows : List LogEntry → Nat → Except (List Char) (List StoredEntry)
  | [], _ => .ok []
  | e :: rest, sequence =>
    match encode_entry e sequence with
    | .error err => .error err
    | .ok row =>
      match build_rows rest (sequence + 1) with
      | .error err => .error err
      | .ok rows => .ok (row :: rows)

/-- The row-count verification after the INSERT in put_log_entries
(src/sqlite.rs lines 185-191): a number of affected rows different from
the number of entries is an error. -/
def check_rows_affected (rows_affected nentries : Nat) : Except (List Char) Unit :=
  if rows_affected ≠ nentries then
    .error (("Log entries insertion created " ++ toString rows_affected
      ++ " rows but expected " ++ toString nentries).toList)
  else
    .ok ()

/-- State of a SqliteDb: the rows of the logs table in insertion order
and the log_sequence counter (an AtomicU64, so it wraps at 2^64). -/
structure DbState where
  log : List StoredEntry
  log_sequence : Nat
deriving DecidableEq, Repr

/-- put_log_entries in src/sqlite.rs.  An empty batch returns Ok before
touching anything.  Otherwise log_sequence.fetch_add(nentries) reserves
the sequence numbers (the old value seeds the bind loop and the counter
advances unconditionally, even if a later step fails), the rows are
built, and the INSERT is executed; the model database inserts every
bound row, so rows_affected is the number of built rows. -/
def put_log_entries (s : DbState) (entries : List LogEntry) :
    DbState × Except (List Char) Unit :=
  let nentries := entries.length
  if nentries = 0 then
    (s, .ok ())
  else
    let sequence := s.log_sequence
    let s1 : DbState := { s with log_sequence := (s.log_sequence + nentries) % 2 ^ 64 }
    match build_rows entries sequence with
    | .error err => (s1, .error err)
    | .ok rows =>
      let s2 : DbState := { s1 with log := s1.log ++ rows }
      match check_rows_affected rows.length nentries with
      | .error err => (s2, .error err)
      | .ok _ => (s2, .ok ())

/-- write_all in src/logger.rs: await the batch write and, if it failed,
print one line to stderr; the error is not returned, retried or
requeued.  The result of the function is the list of stderr lines it
prints. -/
def write_all (res : Except (List Char) Unit) : List (List Char) :=
  match res with
  | .error e => [("Failed to write log entries: ".toList ++ e)]
  | .ok _ => []

/-! ## Concrete sample values used in closed theorems -/

/-- A concrete log entry. -/
def sampleEntry : LogEntry :=
  { timestamp := 0
    hostname := []
    level := Level.info
    module := none
    filename := none
    line := none
    message := [] }

/-- The row that put_log_entries builds for sampleEntry at sequence 0. -/
def sampleRow : StoredEntry :=
  { timestamp_secs := 0
    timestamp_nsecs := 0
    sequence := 0
    hostname := []
    level := 3
    module := none
    filename := none
    line := none
    message := [] }

/-- A concrete record at Trace level from the async_io runtime, used to
compare is_recorder_log with the spec's description of the filter. -/
def asyncTraceRecord : LogRecord :=
  { level := Level.trace
    module := some ("async_io::driver".toList)
    file := none
    line := none
    message := [] }

/-- Well-formedness of the stored log with respect to sequence numbers:
rows are strictly increasing in sequence, and every stored sequence
number is below the counter.  Holds of the fresh database (empty log,
counter 0) and is preserved by successful batch appends. -/
def SeqWellFormed (s : DbState) : Prop :=
  List.Pairwise (fun a b => a.sequence < b.sequence) s.log ∧
  ∀ r ∈ s.log, r.sequence < s.log_sequence

/-! ## Theorems about the claims -/

/-- C3: receiving Record(e) appends e to the buffer and sends no
acknowledgment; a write is started if and only if the buffer length
thereby reaches MAX_BATCH_SIZE = 128, in which case the whole buffer
(ending in e) is dispatched as one batch, tracked in-flight, and the
buffer becomes empty. -/
theorem record_appends_and_batches_at_threshold (e : LogEntry) (s : RecorderState) :
    (recorderStep (RecvResult.ok (Action.record e)) s).2.acks = 0 ∧
    (recorderStep (RecvResult.ok (Action.record e)) s).2.awaited = [] ∧
    ((recorderStep (RecvResult.ok (Action.record e)) s).2.started ≠ [] ↔
      (s.buffer ++ [e]).length = MAX_BATCH_SIZE) ∧
    (if (s.buffer ++ [e]).length = MAX_BATCH_SIZE then
      (recorderStep (RecvResult.ok (Action.record e)) s).2.started = [s.buffer ++ [e]] ∧
      (recorderStep (RecvResult.ok (Action.record e)) s).1.buffer = [] ∧
      (recorderStep (RecvResult.ok (Action.record e)) s).1.writers
        = s.writers ++ [s.buffer ++ [e]]
    else
      (recorderStep (RecvResult.ok (Action.record e)) s).2.started = [] ∧
      (recorderStep (RecvResult.ok (Action.record e)) s).1.buffer = s.buffer ++ [e] ∧
      (recorderStep (RecvResult.ok (Action.record e)) s).1.writers = s.writers) ∧
    MAX_BATCH_SIZE = 128 := by
  by_cases h : s.buffer.length = 127 <;>
    simp [recorderStep, recordStep, h, MAX_BATCH_SIZE]

/-- C2: a Flush (caller-initiated, or generated by the 5-second
recv_timeout) dispatches the buffer as one batch when non-empty, then
awaits every in-flight write — the earlier ones followed by the one just
started — leaving both the buffer and the in-flight set empty; exactly
one acknowledgment is sent iff the flush was caller-initiated. -/
theorem flush_awaits_all_and_acks_iff_caller (auto_flush : Bool) (s : RecorderState) :
    recorderStep RecvResult.timeout s = flushStep true s ∧
    recorderStep (RecvResult.ok Action.flush) s = flushStep false s ∧
    (flushStep auto_flush s).1.buffer = [] ∧
    (flushStep auto_flush s).1.writers = [] ∧
    (flushStep auto_flush s).2.started = (if s.buffer.isEmpty then [] else [s.buffer]) ∧
    (flushStep auto_flush s).2.awaited = s.writers ++ (flushStep auto_flush s).2.started ∧
    (flushStep auto_flush s).2.acks = (if auto_flush then 0 else 1) ∧
    MAX_FLUSH_DELAY_SECS = 5 := by
  by_cases h : s.buffer.isEmpty
  · have hb : s.buffer = [] := by simpa using h
    simp [recorderStep, flushStep, h, hb, MAX_FLUSH_DELAY_SECS]
  · simp [recorderStep, flushStep, h, MAX_FLUSH_DELAY_SECS]

/-- C1 counterexample: a Stop received with a non-empty buffer and an
in-flight writer sends the terminal acknowledgment without starting any
write for the buffered entry and without awaiting the in-flight write,
contradicting the claim that Stop first performs an unconditional flush
and awaits every in-flight write. -/
theorem stop_does_not_drain_counterexample :
    (RecorderState.mk [sampleEntry] [[sampleEntry]]).buffer ≠ [] ∧
    (RecorderState.mk [sampleEntry] [[sampleEntry]]).writers ≠ [] ∧
    (recorderStep (RecvResult.ok Action.stop)
      (RecorderState.mk [sampleEntry] [[sampleEntry]])).2.started = [] ∧
    (recorderStep (RecvResult.ok Action.stop)
      (RecorderState.mk [sampleEntry] [[sampleEntry]])).2.awaited = [] ∧
    (recorderStep (RecvResult.ok Action.stop)
      (RecorderState.mk [sampleEntry] [[sampleEntry]])).2.acks = 1 := by
  refine ⟨by simp, by simp, rfl, rfl, rfl⟩

/-- C1 (amended): on Stop the actor terminates at once, sending the
terminal acknowledgment without flushing the buffer or awaiting
in-flight writes; draining at shutdown is instead provided by the
Handle, whose drop sequence processes an acknowledged Flush before the
Stop, so that every entry buffered at shutdown is dispatched and every
in-flight write awaited before the terminal acknowledgment. -/
theorem stop_immediate_and_handle_drop_drains (s : RecorderState) :
    (recorderStep (RecvResult.ok Action.stop) s).2 = ⟨[], [], 1, 0, true⟩ ∧
    (handle_drop s).2.1.started = (if s.buffer.isEmpty then [] else [s.buffer]) ∧
    (handle_drop s).2.1.awaited = s.writers ++ (handle_drop s).2.1.started ∧
    (handle_drop s).2.1.acks = 1 ∧
    (recorderStep (RecvResult.ok Action.flush) s).1.buffer = [] ∧
    (recorderStep (RecvResult.ok Action.flush) s).1.writers = [] ∧
    (handle_drop s).2.2 = ⟨[], [], 1, 0, true⟩ := by
  by_cases h : s.buffer.isEmpty
  · have hb : s.buffer = [] := by simpa using h
    simp [handle_drop, recorderStep, flushStep, h, hb]
  · simp [handle_drop, recorderStep, flushStep, h]

/-- C8: a failed batch write is reported by write_all as exactly one
line on stderr and is otherwise dropped (write_all returns no error, so
nothing is retried, requeued or propagated, and the recorder loop
continues); and the row-count verification in put_log_entries succeeds
exactly when the INSERT affected as many rows as there were entries. -/
theorem write_failure_dropped_and_rowcount_checked :
    (∀ err : List Char,
      write_all (Except.error err) = [("Failed to write log entries: ".toList ++ err)]) ∧
    write_all (Except.ok ()) = [] ∧
    (∀ rows_affected nentries : Nat,
      (check_rows_affected rows_affected nentries).isOk = decide (rows_affected = nentries)) ∧
    (∀ (auto_flush : Bool) (s : RecorderState),
      (flushStep auto_flush s).2.terminated = false) ∧
    (∀ (e : LogEntry) (s : RecorderState),
      (recordStep e s).2.terminated = false) := by
  refine ⟨fun err => rfl, rfl, fun r n => ?_, fun auto_flush s => ?_, fun e s => ?_⟩
  · by_cases h : r = n <;> simp [check_rows_affected, h, Except.isOk, Except.toBool]
  · by_cases h : s.buffer.isEmpty <;> simp [flushStep, h]
  · by_cases h : s.buffer.length + 1 = MAX_BATCH_SIZE <;> simp [recordStep, h]

/-- C9: put_log_entries on an empty batch returns Ok immediately: the
stored log and the log_sequence counter are unchanged. -/
theorem empty_batch_is_noop (s : DbState) :
    put_log_entries s [] = (s, Except.ok ()) := rfl

/-- C5 counterexample: an absent RUST_LOG falls back to Warn with zero
diagnostic lines on stderr, and a hostname-lookup failure substitutes
the placeholder with zero diagnostic lines, contradicting the claim
that every configuration error is accompanied by a diagnostic. -/
theorem config_without_diagnostic_counterexample :
    env_rust_log EnvValue.missing = (Level.warn, 0) ∧
    init_hostname none = ("invalid-hostname".toList, 0) := ⟨rfl, rfl⟩

/-- C5 (amended): every configuration error is recovered with a safe
default and never fails startup, but only some paths emit a diagnostic:
an unparsable or non-Unicode RUST_LOG value falls back to Warn with one
diagnostic line, an absent RUST_LOG falls back to Warn silently, and a
hostname-lookup failure substitutes the fixed placeholder
"invalid-hostname" without a diagnostic. -/
theorem config_errors_recovered (s : List Char) (lookup : Option (List Char)) :
    env_rust_log (EnvValue.val s)
      = (match level_from_str s with
         | some level => (level, 0)
         | none => (DEFAULT_LOG_LEVEL, 1)) ∧
    env_rust_log EnvValue.missing = (DEFAULT_LOG_LEVEL, 0) ∧
    env_rust_log EnvValue.notUnicode = (DEFAULT_LOG_LEVEL, 1) ∧
    DEFAULT_LOG_LEVEL = Level.warn ∧
    init_hostname lookup = (lookup.getD ("invalid-hostname".toList), 0) := by
  refine ⟨rfl, rfl, rfl, rfl, ?_⟩
  cases lookup <;> rfl

/-- C4 counterexample: the Trace-level record asyncTraceRecord has a
present module path that is outside the storage-layer module set (no
sqlx:: or rustls:: prefix), yet is_recorder_log classifies it as
self-generated and DbLogger::log never sends it to the actor — so the
classification is not "exactly when the module path is absent or belongs
to the storage-layer set". -/
theorem anti_recursion_counterexample :
    asyncTraceRecord.module = some ("async_io::driver".toList) ∧
    spec_storage_layer_module ("async_io::driver".toList) = false ∧
    is_recorder_log asyncTraceRecord = true ∧
    (DbLogger.log ("host".toList) 0 asyncTraceRecord).1 = none := by
  refine ⟨rfl, by decide, by decide, rfl⟩

/-- C4 (amended): a record is classified as self-generated exactly when
its module path is absent, or starts with a storage-layer module prefix
(sqlx::, rustls::), or — at Trace severity only — starts with one of the
async runtime prefixes async_io::, async_std::, polling; a
self-generated record is never sent to the actor and produces exactly
one raw-error fallback line iff its severity is Warn or more severe,
while any other record is sent as Record(entry) with no fallback
line. -/
theorem anti_recursion_filter_behavior (r : LogRecord) (hostname : List Char) (now : Int) :
    (is_recorder_log r = true ↔
      (r.module = none ∨
        ∃ m, r.module = some m ∧
          (spec_storage_layer_module m = true ∨
            (r.level = Level.trace ∧
              ("async_io::".toList.isPrefixOf m = true ∨
               "async_std::".toList.isPrefixOf m = true ∨
               "polling".toList.isPrefixOf m = true))))) ∧
    (if is_recorder_log r then
      (DbLogger.log hostname now r).1 = none ∧
      (DbLogger.log hostname now r).2
        = (if r.level.toUsize ≤ Level.warn.toUsize then 1 else 0)
    else
      (DbLogger.log hostname now r).1 = some (Action.record
        { timestamp := now
          hostname := hostname
          level := r.level
          module := some (r.module.getD [])
          filename := some (r.file.getD [])
          line := r.line
          message := r.message }) ∧
      (DbLogger.log hostname now r).2 = 0) := by
  constructor
  · cases hm : r.module with
    | none => simp [is_recorder_log, hm]
    | some m =>
      cases hl : r.level <;>
        simp [is_recorder_log, spec_storage_layer_module, hm, hl, Level.toUsize,
          or_assoc]
  · by_cases h : is_recorder_log r <;> simp [h, DbLogger.log]

/-- C6: every row built by the bind loop of put_log_entries has its
hostname truncated to at most 64 characters, module to at most 64,
filename to at most 256 and message to at most 4096; a long message is
stored as exactly its first 4096 characters, and encoding an entry whose
bounded fields are already truncated produces the same result
(truncation is idempotent). -/
theorem truncation_bounds_and_idempotent (e : LogEntry) (seq : Nat) (row : StoredEntry)
    (h : encode_entry e seq = Except.ok row) :
    row.hostname.length ≤ LOG_ENTRY_MAX_HOSTNAME_LENGTH ∧
    (∀ m, row.module = some m → m.length ≤ LOG_ENTRY_MAX_MODULE_LENGTH) ∧
    (∀ f, row.filename = some f → f.length ≤ LOG_ENTRY_MAX_FILENAME_LENGTH) ∧
    row.message.length ≤ LOG_ENTRY_MAX_MESSAGE_LENGTH ∧
    row.message = e.message.take LOG_ENTRY_MAX_MESSAGE_LENGTH ∧
    encode_entry
      { e with
        hostname := e.hostname.take LOG_ENTRY_MAX_HOSTNAME_LENGTH
        module := truncate_option_str e.module LOG_ENTRY_MAX_MODULE_LENGTH
        filename := truncate_option_str e.filename LOG_ENTRY_MAX_FILENAME_LENGTH
        message := e.message.take LOG_ENTRY_MAX_MESSAGE_LENGTH } seq
      = encode_entry e seq ∧
    (LOG_ENTRY_MAX_HOSTNAME_LENGTH = 64 ∧ LOG_ENTRY_MAX_MODULE_LENGTH = 64 ∧
      LOG_ENTRY_MAX_FILENAME_LENGTH = 256 ∧ LOG_ENTRY_MAX_MESSAGE_LENGTH = 4096) := by
  have hfields : row.hostname = e.hostname.take LOG_ENTRY_MAX_HOSTNAME_LENGTH ∧
      row.module = truncate_option_str e.module LOG_ENTRY_MAX_MODULE_LENGTH ∧
      row.filename = truncate_option_str e.filename LOG_ENTRY_MAX_FILENAME_LENGTH ∧
      row.message = e.message.take LOG_ENTRY_MAX_MESSAGE_LENGTH := by
    simp only [encode_entry] at h
    cases hts : unpack_timestamp e.timestamp with
    | error err => rw [hts] at h; cases h
    | ok ts =>
      rw [hts] at h
      dsimp only at h
      by_cases hs : 2 ^ 63 ≤ seq
      · rw [if_pos hs] at h; cases h
      · rw [if_neg hs] at h
        cases h
        simp
  have hidem : encode_entry
      { e with
        hostname := e.hostname.take LOG_ENTRY_MAX_HOSTNAME_LENGTH
        module := truncate_option_str e.module LOG_ENTRY_MAX_MODULE_LENGTH
        filename := truncate_option_str e.filename LOG_ENTRY_MAX_FILENAME_LENGTH
        message := e.message.take LOG_ENTRY_MAX_MESSAGE_LENGTH } seq
      = encode_entry e seq := by
    clear hfields h
    obtain ⟨ets, ehost, elvl, emod, efile, eline, emsg⟩ := e
    cases hts : unpack_timestamp ets with
    | error err => simp [encode_entry, hts]
    | ok ts =>
      cases emod <;> cases efile <;>
        simp [encode_entry, hts, truncate_option_str, List.take_take]
  obtain ⟨hh, hm, hf, hmsg⟩ := hfields
  refine ⟨?_, ?_, ?_, ?_, hmsg, hidem, rfl, rfl, rfl, rfl⟩
  · rw [hh]; exact List.length_take_le _ _
  · intro m hmem
    rw [hm] at hmem
    cases hcase : e.module with
    | none => rw [hcase] at hmem; cases hmem
    | some v =>
      rw [hcase] at hmem
      simp only [truncate_option_str] at hmem
      simp at hmem
      subst hmem
      exact List.length_take_le _ _
  · intro f hmem
    rw [hf] at hmem
    cases hcase : e.filename with
    | none => rw [hcase] at hmem; cases hmem
    | some v =>
      rw [hcase] at hmem
      simp only [truncate_option_str] at hmem
      simp at hmem
      subst hmem
      exact List.length_take_le _ _
  · rw [hmsg]; exact List.length_take_le _ _

/-- C6 witness: a concrete application of the truncation theorem. -/
theorem truncation_bounds_witness :
    encode_entry sampleEntry 0 = Except.ok sampleRow ∧
    sampleRow.message = sampleEntry.message.take LOG_ENTRY_MAX_MESSAGE_LENGTH ∧
    sampleRow.message.length ≤ LOG_ENTRY_MAX_MESSAGE_LENGTH := by
  have h : encode_entry sampleEntry 0 = Except.ok sampleRow := by rfl
  have hthm := truncation_bounds_and_idempotent sampleEntry 0 sampleRow h
  exact ⟨h, hthm.2.2.2.2.1, hthm.2.2.2.1⟩

/-- Helper: a successfully encoded row carries the sequence number it
was encoded with. -/
theorem encode_entry_sequence (e : LogEntry) (q : Nat) (row : StoredEntry)
    (h : encode_entry e q = Except.ok row) : row.sequence = q := by
  simp only [encode_entry] at h
  cases hts : unpack_timestamp e.timestamp with
  | error err => rw [hts] at h; cases h
  | ok ts =>
    rw [hts] at h
    dsimp only at h
    by_cases hs : 2 ^ 63 ≤ q
    · rw [if_pos hs] at h; cases h
    · rw [if_neg hs] at h
      cases h
      rfl

/-- Helper: a successful bind loop yields one row per entry, the i-th
row carrying sequence number seq0 + i. -/
theorem build_rows_length_and_seq (entries : List LogEntry) :
    ∀ (seq0 : Nat) (rows : List StoredEntry), build_rows entries seq0 = Except.ok rows →
      rows.length = entries.length ∧
      ∀ i (hi : i < rows.length), (rows.get ⟨i, hi⟩).sequence = seq0 + i := by
  induction entries with
  | nil =>
    intro seq0 rows h
    cases h
    exact ⟨rfl, fun i hi => absurd hi (by simp)⟩
  | cons e rest ih =>
    intro seq0 rows h
    simp only [build_rows] at h
    cases he : encode_entry e seq0 with
    | error err => rw [he] at h; cases h
    | ok row =>
      rw [he] at h
      dsimp only at h
      cases hr : build_rows rest (seq0 + 1) with
      | error err => rw [hr] at h; cases h
      | ok rest_rows =>
        rw [hr] at h
        cases h
        obtain ⟨hlen, hseq⟩ := ih (seq0 + 1) rest_rows hr
        refine ⟨by simp [hlen], fun i hi => ?_⟩
        cases i with
        | zero => simpa using encode_entry_sequence e seq0 row he
        | succ j =>
          have hj : j < rest_rows.length := by
            simp only [List.length_cons] at hi
            omega
          have hrec := hseq j hj
          show (rest_rows.get ⟨j, hj⟩).sequence = seq0 + (j + 1)
          omega

/-- C7: a successful non-wrapping call to put_log_entries appends, in
batch order, one row per entry with consecutive sequence numbers
starting at the pre-call counter, advances the counter by the batch
size, and preserves the strict increase (no gaps or repeats within the
appended rows, no repeats against earlier rows) of stored sequence
numbers. -/
theorem sequence_numbers_consecutive (s s' : DbState) (entries : List LogEntry)
    (h : put_log_entries s entries = (s', Except.ok ()))
    (hwrap : s.log_sequence + entries.length < 2 ^ 64)
    (hwf : SeqWellFormed s) :
    s'.log_sequence = s.log_sequence + entries.length ∧
    (∃ rows, s'.log = s.log ++ rows ∧ rows.length = entries.length ∧
      ∀ i (hi : i < rows.length),
        (rows.get ⟨i, hi⟩).sequence = s.log_sequence + i) ∧
    SeqWellFormed s' := by
  by_cases hn : entries.length = 0
  · have hs' : s' = s := by
      simp only [put_log_entries, if_pos hn] at h
      exact (Prod.mk.injEq _ _ _ _ ▸ h).1.symm
    subst hs'
    refine ⟨by omega, ⟨[], by simp, by simp [hn], fun i hi => absurd hi (by simp)⟩, hwf⟩
  · simp only [put_log_entries, if_neg hn] at h
    cases hb : build_rows entries s.log_sequence with
    | error err => rw [hb] at h; cases h
    | ok rows =>
      rw [hb] at h
      dsimp only at h
      obtain ⟨hlen, hseq⟩ := build_rows_length_and_seq entries s.log_sequence rows hb
      rw [check_rows_affected, if_neg (by omega)] at h
      have hs' : s' = ⟨s.log ++ rows, (s.log_sequence + entries.length) % 2 ^ 64⟩ := by
        exact (Prod.mk.injEq _ _ _ _ ▸ h).1.symm
      subst hs'
      have hctr : (s.log_sequence + entries.length) % 2 ^ 64
          = s.log_sequence + entries.length := Nat.mod_eq_of_lt hwrap
      refine ⟨hctr, ⟨rows, rfl, hlen, hseq⟩, ?_, ?_⟩
      · rw [List.pairwise_append]
        refine ⟨hwf.1, ?_, ?_⟩
        · rw [List.pairwise_iff_get]
          intro i j hij
          rw [hseq i i.isLt, hseq j j.isLt]
          omega
        · intro a ha b hb'
          obtain ⟨k, hk⟩ := List.mem_iff_get.mp hb'
          have hbseq := hseq k k.isLt
          rw [hk] at hbseq
          have haseq := hwf.2 a ha
          omega
      · intro r hr
        rcases List.mem_append.mp hr with hr | hr
        · have := hwf.2 r hr
          simp only [hctr]
          omega
        · obtain ⟨k, hk⟩ := List.mem_iff_get.mp hr
          have := hseq k k.isLt
          rw [hk] at this
          simp only [hctr]
          omega

/-- C7 witness: a concrete successful append of one entry to the fresh
database. -/
theorem sequence_numbers_consecutive_witness :
    put_log_entries ⟨[], 0⟩ [sampleEntry] = (⟨[sampleRow], 1⟩, Except.ok ()) ∧
    (0 : Nat) + [sampleEntry].length < 2 ^ 64 ∧
    SeqWellFormed ⟨[], 0⟩ ∧
    (DbState.mk [sampleRow] 1).log_sequence = (0 : Nat) + [sampleEntry].length := by
  have h : put_log_entries ⟨[], 0⟩ [sampleEntry] = (⟨[sampleRow], 1⟩, Except.ok ()) := by rfl
  have hwrap : (0 : Nat) + [sampleEntry].length < 2 ^ 64 := by norm_num
  have hwf : SeqWellFormed ⟨[], 0⟩ := ⟨List.Pairwise.nil, by simp⟩
  exact ⟨h, hwrap, hwf,
    (sequence_numbers_consecutive ⟨[], 0⟩ ⟨[sampleRow], 1⟩ [sampleEntry] h hwrap hwf).1⟩

/-- C10: for every representable timestamp with a non-negative
Unix-epoch nanosecond value, unpack_timestamp succeeds and returns a
(seconds, nanoseconds) pair whose recombination sec * 10^9 + nsec is the
original value rounded up to the next multiple of 1000 (microsecond
precision), with 0 ≤ nsec < 10^9 and nsec a multiple of 1000. -/
theorem unpack_timestamp_rounds_up (ts : Int) (h0 : 0 ≤ ts)
    (hmax : ts ≤ OFFSET_DATE_TIME_MAX_UNIX_NANOS) :
    ∃ sec nsec : Int,
      unpack_timestamp ts = Except.ok (sec, nsec) ∧
      ts ≤ sec * 1000000000 + nsec ∧
      sec * 1000000000 + nsec < ts + 1000 ∧
      (sec * 1000000000 + nsec) % 1000 = 0 ∧
      0 ≤ nsec ∧ nsec < 1000000000 ∧ nsec % 1000 = 0 := by
  have hmax' : ts ≤ 253402300799999999999 := by
    simpa [OFFSET_DATE_TIME_MAX_UNIX_NANOS] using hmax
  have htd : Int.tdiv ts 1000 = ts / 1000 := Int.tdiv_eq_ediv h0 (by norm_num)
  have htm : Int.tmod ts 1000 = ts % 1000 := Int.tmod_eq_emod h0 (by norm_num)
  set w : Int := if 0 < ts % 1000 then ts / 1000 * 1000 + 1000 else ts / 1000 * 1000
    with hw
  have hw0 : 0 ≤ w := by rw [hw]; split <;> omega
  have hts_le : ts ≤ w := by rw [hw]; split <;> omega
  have hle : w ≤ ts + 999 := by rw [hw]; split <;> omega
  have hmod : w % 1000 = 0 := by rw [hw]; split <;> omega
  have htd2 : Int.tdiv w 1000000000 = w / 1000000000 :=
    Int.tdiv_eq_ediv hw0 (by norm_num)
  have htm2 : Int.tmod w 1000000000 = w % 1000000000 :=
    Int.tmod_eq_emod hw0 (by norm_num)
  refine ⟨w / 1000000000, w % 1000000000, ?_, by omega, by omega, by omega,
    by omega, by omega, by omega⟩
  simp only [unpack_timestamp]
  rw [htm, htd, ← hw, htd2, htm2]
  split
  · rename_i hc
    exfalso
    simp only [Bool.or_eq_true, decide_eq_true_eq] at hc
    rcases hc with hc | hc <;> omega
  · rfl

/-- C10 witness: a concrete timestamp, 1234567891 ns after the epoch,
unpacked to 1 s and 234568000 ns (rounded up to the next microsecond). -/
theorem unpack_timestamp_rounds_up_witness :
    (0 : Int) ≤ 1234567891 ∧
    (1234567891 : Int) ≤ OFFSET_DATE_TIME_MAX_UNIX_NANOS ∧
    (∃ sec nsec : Int,
      unpack_timestamp 1234567891 = Except.ok (sec, nsec) ∧
      (1234567891 : Int) ≤ sec * 1000000000 + nsec ∧
      sec * 1000000000 + nsec < 1234567891 + 1000 ∧
      (sec * 1000000000 + nsec) % 1000 = 0 ∧
      0 ≤ nsec ∧ nsec < 1000000000 ∧ nsec % 1000 = 0) := by
  refine ⟨by norm_num, by norm_num [OFFSET_DATE_TIME_MAX_UNIX_NANOS], ?_⟩
  exact unpack_timestamp_rounds_up 1234567891 (by norm_num)
    (by norm_num [OFFSET_DATE_TIME_MAX_UNIX_NANOS])

end DbLoggerModel
